import Mathlib

/-!
Verification of the bounds-generation core of harp.gl
(`@here/harp-mapview/lib/BoundsGenerator.ts`) and of the static elevation
range source, as a shallow embedding over exact rationals.

Scalars are modelled by `ℚ`.  External capabilities that the generator merely
consumes — the projection's `unprojectPoint`, `MapViewUtils.rayCastWorldCoordinates`,
the three.js camera/frustum/plane/sphere primitives — are fields of an `Env`
record, so every theorem about the generator quantifies over all possible
behaviours of those collaborators while the control flow of the generator
itself is translated line by line from the source.
-/

set_option autoImplicit false

namespace HarpBounds

/-- A three.js `Vector3` with exact rational components. -/
structure Vector3 where
  x : ℚ
  y : ℚ
  z : ℚ
deriving DecidableEq

/-- Componentwise sum (three.js `Vector3.add`). -/
def Vector3.add (a b : Vector3) : Vector3 := ⟨a.x + b.x, a.y + b.y, a.z + b.z⟩

/-- Componentwise difference (three.js `Vector3.sub` / `subVectors`, result value). -/
def Vector3.sub (a b : Vector3) : Vector3 := ⟨a.x - b.x, a.y - b.y, a.z - b.z⟩

/-- Scalar multiple (three.js `Vector3.multiplyScalar`). -/
def Vector3.smul (k : ℚ) (a : Vector3) : Vector3 := ⟨k * a.x, k * a.y, k * a.z⟩

/-- Dot product of two vectors. -/
def Vector3.dot (a b : Vector3) : ℚ := a.x * b.x + a.y * b.y + a.z * b.z

/-- A harp-geoutils `GeoCoordinates` record: latitude and longitude in degrees,
optional altitude in meters. -/
structure GeoCoordinates where
  latitude : ℚ
  longitude : ℚ
  altitude : Option ℚ := none
deriving DecidableEq

/-- A three.js `Line3`: a finite segment between two points.  The second field is
named `stop` because `end` is reserved. -/
structure Line3 where
  start : Vector3
  stop : Vector3
deriving DecidableEq

/-- A three.js `Ray`: origin plus direction. -/
structure Ray where
  origin : Vector3
  direction : Vector3
deriving DecidableEq

/-- The projection type tag used for algorithm dispatch. -/
inductive ProjectionType where
  | Planar
  | Spherical
deriving DecidableEq

/-- EarthConstants.EQUATORIAL_RADIUS (meters). -/
def EQUATORIAL_RADIUS : ℚ := 6378137

/-- EarthConstants.EQUATORIAL_CIRCUMFERENCE, the source's floating constant
2·π·EQUATORIAL_RADIUS ≈ 40075016.686, rounded down to a whole number of meters.
Its exact magnitude is irrelevant to every claim below; only its role as the
upper bound of the world rectangle matters. -/
def EQUATORIAL_CIRCUMFERENCE : ℚ := 40075016

/-- One plane of the camera frustum, as the generator consumes it: the composite
three.js tests `Ray.intersectsPlane`/`Ray.intersectPlane` and
`Plane.intersectsLine`/`Plane.intersectLine` are modelled as single
`Option`-valued capabilities (absent when the guard fails or no intersection
point is produced). -/
structure PlaneCap where
  intersectRay : Ray → Option Vector3
  intersectLine : Line3 → Option Vector3

/-- The external capabilities a `BoundsGenerator` instance holds or consumes:
the configuration (projection type, wrapping flag), the projection
(`unprojectPoint`, `worldExtent`), `MapViewUtils.rayCastWorldCoordinates` and
`MapViewUtils.closeToFrustum`, and the three.js camera/frustum/plane/sphere
operations.  Theorems quantify over this record. -/
structure Env where
  projectionType : ProjectionType
  tileWrappingEnabled : Bool
  /-- MapViewUtils.rayCastWorldCoordinates: intersection of the ray through an
  NDC point with the ground surface, absent when there is no hit. -/
  rayCastWorldCoordinates : ℚ → ℚ → Option Vector3
  /-- Projection.unprojectPoint: world space to geographic coordinates. -/
  unprojectPoint : Vector3 → GeoCoordinates
  /-- Projection.worldExtent(0, 0).min (planar projections only). -/
  worldExtentMin : Vector3
  /-- Projection.worldExtent(0, 0).max (planar projections only). -/
  worldExtentMax : Vector3
  /-- three.js Frustum.containsPoint for the frustum built from the camera. -/
  frustumContainsPoint : Vector3 → Bool
  /-- The six planes of that frustum. -/
  frustumPlanes : Fin 6 → PlaneCap
  /-- MapViewUtils.closeToFrustum: tolerance test absorbing floating point error. -/
  closeToFrustum : Vector3 → Bool
  /-- three.js Vector3.unproject(camera): NDC to world space. -/
  cameraUnproject : Vector3 → Vector3
  /-- three.js Vector3.project(camera): world space to NDC. -/
  cameraProject : Vector3 → Vector3
  /-- three.js Plane.intersectLine against the ground plane z = 0. -/
  groundPlaneIntersectLine : Line3 → Option Vector3
  /-- three.js Ray.intersectSphere against the ground sphere. -/
  intersectSphere : Ray → Option Vector3
  /-- three.js Vector3.normalize, used on the wrap-mode ray directions. -/
  normalize : Vector3 → Vector3

/-- BoundsGenerator.isInVisibleMap: a planar hit point is accepted when its
world Y lies in [0, circumference] and, unless tile wrapping is enabled, its
world X lies in the same range; spherical points are always accepted. -/
def isInVisibleMap (env : Env) (point : Vector3) : Bool :=
  if env.projectionType = ProjectionType.Planar then
    if point.y < 0 ∨ point.y > EQUATORIAL_CIRCUMFERENCE then
      false
    else if ¬ env.tileWrappingEnabled ∧
        (point.x < 0 ∨ point.x > EQUATORIAL_CIRCUMFERENCE) then
      false
    else
      true
  else
    true

/-- BoundsGenerator.validateAndAddToGeoPolygon: push the unprojection of a hit
point onto the accumulator when it passes `isInVisibleMap`. -/
def validateAndAddToGeoPolygon (env : Env) (point : Vector3)
    (geoPolygon : List GeoCoordinates) : List GeoCoordinates :=
  if isInVisibleMap env point then geoPolygon ++ [env.unprojectPoint point]
  else geoPolygon

/-- BoundsGenerator.addNDCRayIntersection: raycast each NDC point and
validate/push every hit, in order. -/
def addNDCRayIntersection (env : Env) (ndcPoints : List (ℚ × ℚ))
    (geoPolygon : List GeoCoordinates) : List GeoCoordinates :=
  ndcPoints.foldl
    (fun acc corner =>
      match env.rayCastWorldCoordinates corner.1 corner.2 with
      | some intersection => validateAndAddToGeoPolygon env intersection acc
      | none => acc)
    geoPolygon

/-- BoundsGenerator.addCanvasCornerIntersection: raycast the four NDC viewport
corners (with `addMidPoints` the source lists the same four corners in the
other winding; the flag is false at every call site). -/
def addCanvasCornerIntersection (env : Env) (geoPolygon : List GeoCoordinates)
    (addMidPoints : Bool := false) : List GeoCoordinates :=
  if addMidPoints then
    addNDCRayIntersection env [(-1, -1), (1, -1), (1, 1), (-1, 1)] geoPolygon
  else
    addNDCRayIntersection env [(-1, -1), (-1, 1), (1, 1), (1, -1)] geoPolygon

/-- Longitude minimum of a coordinate list, as the source folds it (the JS code
folds `Math.min` from `Infinity`; on the lists reaching the comparisons the
list is nonempty, and the `[]` value 0 is never consulted). -/
def minLongitudeOf : List GeoCoordinates → ℚ
  | [] => 0
  | c0 :: rest => rest.foldl (fun m c => min m c.longitude) c0.longitude

/-- Longitude maximum of a coordinate list (JS fold of `Math.max` from
`-Infinity`). -/
def maxLongitudeOf : List GeoCoordinates → ℚ
  | [] => 0
  | c0 :: rest => rest.foldl (fun m c => max m c.longitude) c0.longitude

/-- The wrap correction loop of BoundsGenerator.normalizeCoordinates: every
negative longitude is shifted by +360. -/
def shiftNegativeLongitudes (coordinates : List GeoCoordinates) : List GeoCoordinates :=
  coordinates.map fun c =>
    if c.longitude < 0 then { c with longitude := 360 + c.longitude } else c

/-- BoundsGenerator.normalizeCoordinates: skip when the longitudes are all
non-negative or all negative (on an empty list the JS fold leaves
min = Infinity, so the guard holds and the list is returned unchanged, matching
the `[]` case here); otherwise consult the look-at raycast through the NDC
origin, or fall back to the span comparison when it misses, to decide whether
to shift every negative longitude by +360. -/
def normalizeCoordinates (env : Env) (coordinates : List GeoCoordinates) :
    List GeoCoordinates :=
  match coordinates with
  | [] => coordinates
  | _ :: _ =>
    let minLongitude := minLongitudeOf coordinates
    let maxLongitude := maxLongitudeOf coordinates
    if 0 ≤ minLongitude ∨ maxLongitude < 0 then
      coordinates
    else
      match env.rayCastWorldCoordinates 0 0 with
      | some cameraTarget =>
        let targetLongitude := (env.unprojectPoint cameraTarget).longitude
        if -90 < targetLongitude ∧ targetLongitude < 90 then coordinates
        else shiftNegativeLongitudes coordinates
      | none =>
        if maxLongitude - minLongitude < 360 + minLongitude - maxLongitude then
          coordinates
        else shiftNegativeLongitudes coordinates

/-- BoundsGenerator.subdivideSides: the documented no-op placeholder for
dividing sides larger than 5 degrees of longitude or 20 of latitude. -/
def subdivideSides (coordinates : List GeoCoordinates) : List GeoCoordinates :=
  coordinates

/-- Modelled from the spec: harp-geoutils `GeoPolygon` (outside src/) stores an
ordered ring of at least 3 coordinates; its constructor re-sorts the vertices
into counter-clockwise winding when the sort flag is set.  We keep the vertex
list as handed to the constructor together with that flag. -/
structure GeoPolygon where
  coordinates : List GeoCoordinates
  needsSort : Bool
deriving DecidableEq

/-- BoundsGenerator.createPolygon: absent unless more than 2 coordinates were
accumulated; otherwise optionally normalize and build the polygon with the
given sort flag. -/
def createPolygon (env : Env) (coordinates : List GeoCoordinates) (sort : Bool)
    (normalize : Bool := false) : Option GeoPolygon :=
  if coordinates.length > 2 then
    some ⟨if normalize then normalizeCoordinates env coordinates else coordinates, sort⟩
  else
    none

/-- The sides of the far clipping plane probed by the spherical algorithm. -/
inductive FarPlaneSide where
  | Bottom
  | Right
  | Top
  | Left
deriving DecidableEq

/-- BoundsGenerator.addFarPlaneSideIntersections: unproject the two NDC corners
of one far-plane side and intersect rays between them with the ground sphere.
The three.js `Vector3.sub` mutates its receiver and `Ray` stores references, so
after `cornerBWorld.sub(cornerAWorld)` the JS variable `cornerBWorld` holds
B − A; the second ray therefore has origin B − A and direction
A − (B − A) = 2A − B.  That aliasing is reproduced here faithfully. -/
def addFarPlaneSideIntersections (env : Env) (coordinates : List GeoCoordinates)
    (side : FarPlaneSide) : List GeoCoordinates :=
  let corners : Vector3 × Vector3 :=
    match side with
    | FarPlaneSide.Bottom => (⟨-1, -1, 1⟩, ⟨1, -1, 1⟩)
    | FarPlaneSide.Right => (⟨1, 1, 1⟩, ⟨1, -1, 1⟩)
    | FarPlaneSide.Top => (⟨-1, 1, 1⟩, ⟨1, 1, 1⟩)
    | FarPlaneSide.Left => (⟨-1, 1, 1⟩, ⟨-1, -1, 1⟩)
  let cornerAWorld := env.cameraUnproject corners.1
  let cornerBWorld := env.cameraUnproject corners.2
  let abDirection := cornerBWorld.sub cornerAWorld
  let coordinates1 :=
    match env.intersectSphere ⟨cornerAWorld, abDirection⟩ with
    | some abIntersection => coordinates ++ [env.unprojectPoint abIntersection]
    | none => coordinates
  let baDirection := cornerAWorld.sub abDirection
  match env.intersectSphere ⟨abDirection, baDirection⟩ with
  | some baIntersection => coordinates1 ++ [env.unprojectPoint baIntersection]
  | none => coordinates1

/-- BoundsGenerator.findBoundsIntersectionsOnSphere: four corner raycasts, an
early return when all hit, otherwise the far-plane side probes (the bottom one
only when no corner hit). -/
def findBoundsIntersectionsOnSphere (env : Env) : List GeoCoordinates :=
  let coordinates := addCanvasCornerIntersection env [] false
  if coordinates.length = 4 then
    coordinates
  else
    let coordinates :=
      if coordinates.length = 0 then
        addFarPlaneSideIntersections env coordinates FarPlaneSide.Bottom
      else
        coordinates
    let coordinates := addFarPlaneSideIntersections env coordinates FarPlaneSide.Right
    let coordinates := addFarPlaneSideIntersections env coordinates FarPlaneSide.Top
    addFarPlaneSideIntersections env coordinates FarPlaneSide.Left

/-- The internal consistency check of findBoundsIntersectionsOnSphere: the
`assert(coordinates.length === 2)` in the nonzero-hit branch is evaluated only
when the corner stage produced neither 4 nor 0 points, so every assertion in
the function holds exactly when the corner-hit count is 4, 0 or 2. -/
def sphereAssertOk (env : Env) : Bool :=
  let n := (addCanvasCornerIntersection env [] false).length
  decide (n = 4 ∨ n = 0 ∨ n = 2)

/-- BoundsGenerator.generateOnSphere: subdivide (a no-op), then build the
polygon with both the sort and the normalize flags set. -/
def generateOnSphere (env : Env) : Option GeoPolygon :=
  createPolygon env (subdivideSides (findBoundsIntersectionsOnSphere env)) true true

/-- TileCorners: the four world-space corners of one world repetition. -/
structure TileCorners where
  sw : Vector3
  se : Vector3
  nw : Vector3
  ne : Vector3
deriving DecidableEq

/-- BoundsGenerator.getWorldConers (sic): absent for non-planar projections,
otherwise the corners of `worldExtent(0, 0)`. -/
def getWorldConers (env : Env) : Option TileCorners :=
  if env.projectionType ≠ ProjectionType.Planar then
    none
  else
    some
      { sw := env.worldExtentMin
        se := ⟨env.worldExtentMax.x, env.worldExtentMin.y, 0⟩
        nw := ⟨env.worldExtentMin.x, env.worldExtentMax.y, 0⟩
        ne := env.worldExtentMax }

/-- BoundsGenerator.addPointInFrustum: a world corner contained in the frustum
is unprojected and pushed with its altitude forced to 0. -/
def addPointInFrustum (env : Env) (point : Vector3)
    (geoPolygon : List GeoCoordinates) : List GeoCoordinates :=
  if env.frustumContainsPoint point then
    geoPolygon ++ [{ env.unprojectPoint point with altitude := some 0 }]
  else
    geoPolygon

/-- The `Line3 | Ray` union taken by addFrustumIntersection. -/
inductive Edge where
  | line (l : Line3)
  | ray (r : Ray)

/-- The `instanceof` dispatch inside addFrustumIntersection: the intersection
of the edge with one frustum plane, through the ray or the line capability of
that plane. -/
def edgeIntersectPlane (env : Env) (edge : Edge) (i : Fin 6) : Option Vector3 :=
  match edge with
  | Edge.ray r => (env.frustumPlanes i).intersectRay r
  | Edge.line l => (env.frustumPlanes i).intersectLine l

/-- BoundsGenerator.addFrustumIntersection: intersect a segment or ray with
every one of the six frustum planes; each intersection that passes the
`closeToFrustum` tolerance check is pushed with altitude forced to 0. -/
def addFrustumIntersection (env : Env) (edge : Edge)
    (geoPolygon : List GeoCoordinates) : List GeoCoordinates :=
  (List.finRange 6).foldl
    (fun acc i =>
      match edgeIntersectPlane env edge i with
      | some p =>
        if env.closeToFrustum p then
          acc ++ [{ env.unprojectPoint p with altitude := some 0 }]
        else
          acc
      | none => acc)
    geoPolygon

/-- BoundsGenerator.getVerticalHorizonPositionInNDC: intersect the vertical
center line of the far plane with the ground plane and project the hit back
into NDC, keeping its y coordinate. -/
def getVerticalHorizonPositionInNDC (env : Env) : Option ℚ :=
  if env.projectionType ≠ ProjectionType.Planar then
    none
  else
    let bottomMidFarPoint :=
      Vector3.smul (1 / 2)
        ((env.cameraUnproject ⟨-1, -1, 1⟩).add (env.cameraUnproject ⟨1, -1, 1⟩))
    let topMidFarPoint :=
      Vector3.smul (1 / 2)
        ((env.cameraUnproject ⟨-1, 1, 1⟩).add (env.cameraUnproject ⟨1, 1, 1⟩))
    match env.groundPlaneIntersectLine ⟨bottomMidFarPoint, topMidFarPoint⟩ with
    | none => none
    | some verticalHorizonPosition => some (env.cameraProject verticalHorizonPosition).y

/-- BoundsGenerator.addHorizonIntersection: in planar mode raycast the two
horizontal extremes of the horizon NDC row (skipped when there is no horizon
row); in spherical mode intersect the two vertical far-plane edge rays with the
ground sphere (this branch is only reached from the spherical caller). -/
def addHorizonIntersection (env : Env) (geoPolygon : List GeoCoordinates) :
    List GeoCoordinates :=
  if env.projectionType = ProjectionType.Planar then
    match getVerticalHorizonPositionInNDC env with
    | none => geoPolygon
    | some verticalHorizonPosition =>
      addNDCRayIntersection env
        [(-1, verticalHorizonPosition), (1, verticalHorizonPosition)] geoPolygon
  else
    let topLeftFarPoint := env.cameraUnproject ⟨-1, 1, 1⟩
    let bottomLeftFarPoint := env.cameraUnproject ⟨-1, -1, 1⟩
    let leftRay : Ray := ⟨topLeftFarPoint, bottomLeftFarPoint.sub topLeftFarPoint⟩
    let geoPolygon1 :=
      match env.intersectSphere leftRay with
      | some leftHorizonIntersection =>
        validateAndAddToGeoPolygon env leftHorizonIntersection geoPolygon
      | none => geoPolygon
    let topRightFarPoint := env.cameraUnproject ⟨1, 1, 1⟩
    let bottomRightPoint := env.cameraUnproject ⟨1, -1, 1⟩
    let rightRay : Ray := ⟨topRightFarPoint, bottomRightPoint.sub topRightFarPoint⟩
    match env.intersectSphere rightRay with
    | some rightHorizonIntersection =>
      validateAndAddToGeoPolygon env rightHorizonIntersection geoPolygon1
    | none => geoPolygon1

/-- The coordinate list BoundsGenerator.generateOnPlane hands to createPolygon:
corner raycasts with an early stop at 4 validated hits, otherwise horizon
raycasts, then — wrapping disabled — world corners in the frustum and the four
finite world edges against the frustum planes, or — wrapping enabled — the four
infinite south/north edge rays against the frustum planes.  The source inlines
this accumulation and calls createPolygon at its two return sites; the
`getWorldConers = none` branch is unreachable from `generate` (the TS code
asserts it away with an `as TileCorners` cast) and returns the list accumulated
so far. -/
def planeCoordinates (env : Env) : List GeoCoordinates :=
  let coordinates := addCanvasCornerIntersection env []
  if coordinates.length = 4 then
    coordinates
  else
    let coordinates := addHorizonIntersection env coordinates
    match getWorldConers env with
    | none => coordinates
    | some worldCorners =>
      let coordinates :=
        if ¬ env.tileWrappingEnabled then
          [worldCorners.ne, worldCorners.nw, worldCorners.se, worldCorners.sw].foldl
            (fun acc corner => addPointInFrustum env corner acc) coordinates
        else
          coordinates
      if ¬ env.tileWrappingEnabled then
        [Edge.line ⟨worldCorners.sw, worldCorners.se⟩,
          Edge.line ⟨worldCorners.ne, worldCorners.nw⟩,
          Edge.line ⟨worldCorners.se, worldCorners.ne⟩,
          Edge.line ⟨worldCorners.nw, worldCorners.sw⟩].foldl
          (fun acc edge => addFrustumIntersection env edge acc) coordinates
      else
        let directionEast := env.normalize (worldCorners.sw.sub worldCorners.se)
        let directionWest := env.normalize (worldCorners.se.sub worldCorners.sw)
        [Edge.ray ⟨worldCorners.se, directionEast⟩,
          Edge.ray ⟨worldCorners.se, directionWest⟩,
          Edge.ray ⟨worldCorners.ne, directionEast⟩,
          Edge.ray ⟨worldCorners.ne, directionWest⟩].foldl
          (fun acc edge => addFrustumIntersection env edge acc) coordinates

/-- BoundsGenerator.generateOnPlane: the accumulated coordinates wound into a
polygon with the sort flag set (and no normalization); both return sites of the
source agree with this factoring through `planeCoordinates`. -/
def generateOnPlane (env : Env) : Option GeoPolygon :=
  createPolygon env (planeCoordinates env) true

/-- BoundsGenerator.generate: dispatch on the projection type. -/
def generate (env : Env) : Option GeoPolygon :=
  if env.projectionType = ProjectionType.Planar then generateOnPlane env
  else generateOnSphere env

/-- The boundary points accumulated by whichever algorithm `generate`
dispatches to, before polygon construction. -/
def boundaryCoordinates (env : Env) : List GeoCoordinates :=
  if env.projectionType = ProjectionType.Planar then planeCoordinates env
  else subdivideSides (findBoundsIntersectionsOnSphere env)

/-! ### Claim-side characterizations of the planar step 3/4 accumulation -/

/-- The world corners of one planar world repetition that the frustum contains,
unprojected with altitude forced to 0, in the iteration order ne, nw, se, sw of
the source. -/
def cornersInFrustum (env : Env) (worldCorners : TileCorners) : List GeoCoordinates :=
  ([worldCorners.ne, worldCorners.nw, worldCorners.se, worldCorners.sw].filter
      env.frustumContainsPoint).map
    fun p => { env.unprojectPoint p with altitude := some 0 }

/-- The contribution of one frustum plane to addFrustumIntersection: the
intersection with the given edge, kept only when the `closeToFrustum` tolerance
check confirms it, with altitude forced to 0. -/
def planeHit (env : Env) (edge : Edge) (i : Fin 6) : List GeoCoordinates :=
  match edgeIntersectPlane env edge i with
  | some p =>
    if env.closeToFrustum p then [{ env.unprojectPoint p with altitude := some 0 }]
    else []
  | none => []

/-- Every tolerance-confirmed intersection of one edge with every one of the
six frustum planes. -/
def frustumPlaneHits (env : Env) (edge : Edge) : List GeoCoordinates :=
  (List.finRange 6).flatMap (planeHit env edge)

/-- The four finite world edges tested when tile wrapping is disabled, in
source order: south, north, east, west. -/
def worldEdgeLines (worldCorners : TileCorners) : List Edge :=
  [Edge.line ⟨worldCorners.sw, worldCorners.se⟩,
    Edge.line ⟨worldCorners.ne, worldCorners.nw⟩,
    Edge.line ⟨worldCorners.se, worldCorners.ne⟩,
    Edge.line ⟨worldCorners.nw, worldCorners.sw⟩]

/-- The four infinite rays cast along the south and north world edges when tile
wrapping is enabled, in source order. -/
def worldEdgeRays (env : Env) (worldCorners : TileCorners) : List Edge :=
  let directionEast := env.normalize (worldCorners.sw.sub worldCorners.se)
  let directionWest := env.normalize (worldCorners.se.sub worldCorners.sw)
  [Edge.ray ⟨worldCorners.se, directionEast⟩,
    Edge.ray ⟨worldCorners.se, directionWest⟩,
    Edge.ray ⟨worldCorners.ne, directionEast⟩,
    Edge.ray ⟨worldCorners.ne, directionWest⟩]

/-- The normalization rule exactly as claim C4 words it: skip when the
longitudes are all non-negative or all negative; otherwise apply no correction
exactly when the look-at raycast through the NDC origin yields a point whose
longitude lies strictly within (-90, 90), and in every other case shift every
negative longitude by +360.  This follows the claim text, to be compared with
`normalizeCoordinates`, which is translated from the source. -/
def normalizeCoordinatesClaimed (env : Env) (coordinates : List GeoCoordinates) :
    List GeoCoordinates :=
  match coordinates with
  | [] => coordinates
  | _ :: _ =>
    if 0 ≤ minLongitudeOf coordinates ∨ maxLongitudeOf coordinates < 0 then
      coordinates
    else
      let lookAtInRange : Bool :=
        match env.rayCastWorldCoordinates 0 0 with
        | some cameraTarget =>
          decide (-90 < (env.unprojectPoint cameraTarget).longitude ∧
            (env.unprojectPoint cameraTarget).longitude < 90)
        | none => false
      if lookAtInRange then coordinates else shiftNegativeLongitudes coordinates

/-! ### The static elevation range source (src/unnamed/part_000) -/

/-- Status of the elevation range calculation. -/
inductive CalculationStatus where
  | PendingApproximate
  | FinalPrecise
deriving DecidableEq

/-- Elevation range with an optional calculation status. -/
structure ElevationRange where
  minElevation : ℚ
  maxElevation : ℚ
  calculationStatus : Option CalculationStatus := none
deriving DecidableEq

/-- A harp-geoutils TileKey; the elevation source ignores everything but its
identity, so the mortonCode-style fields suffice. -/
structure TileKey where
  row : Nat
  column : Nat
  level : Nat
deriving DecidableEq

/-- An opaque TilingScheme handle (consumed capability, identity only). -/
structure TilingScheme where
  id : Nat
deriving DecidableEq

/-- The state of the promise returned by `connect()`: `Promise.resolve()` is an
already-resolved promise. -/
inductive PromiseState where
  | resolved
  | pending
deriving DecidableEq

/-- StaticElevationRangeSource after construction: its tiling scheme and the
fixed elevation pair (taken either from a DataSource or from the constructor
arguments; the claims concern only the resulting fields). -/
structure StaticElevationRangeSource where
  m_tilingScheme : TilingScheme
  m_minElevation : ℚ := 0
  m_maxElevation : ℚ := 0
deriving DecidableEq

/-- StaticElevationRangeSource.getElevationRange: the fixed pair with status
FinalPrecise, whatever the tile key. -/
def StaticElevationRangeSource.getElevationRange (s : StaticElevationRangeSource)
    (_tileKey : TileKey) : ElevationRange :=
  { minElevation := s.m_minElevation
    maxElevation := s.m_maxElevation
    calculationStatus := some CalculationStatus.FinalPrecise }

/-- StaticElevationRangeSource.getTilingScheme. -/
def StaticElevationRangeSource.getTilingScheme (s : StaticElevationRangeSource) :
    TilingScheme :=
  s.m_tilingScheme

/-- StaticElevationRangeSource.connect: `Promise.resolve()`. -/
def StaticElevationRangeSource.connect (_s : StaticElevationRangeSource) :
    PromiseState :=
  PromiseState.resolved

/-- StaticElevationRangeSource.ready: always true. -/
def StaticElevationRangeSource.ready (_s : StaticElevationRangeSource) : Bool :=
  true

/-! ### A geometric model of no-roll cameras over the ground sphere (claim C7)

The per-corner hit outcome is produced by `MapViewUtils.rayCastWorldCoordinates`,
which lives outside src/; following the spec it is modelled as the existence of
a ray/ground-sphere intersection at a non-negative ray parameter. -/

/-- Modelled from the spec: MapViewUtils.rayCastWorldCoordinates (outside src/)
computes the intersection of the world-space ray with the ground surface and is
absent when there is no intersection.  For the sphere of the given radius
centered at the origin, a ray from `origin` along `direction` meets it at some
parameter t ≥ 0 exactly when the quadratic
`(d·d)·t² + (2 o·d)·t + (o·o − radius²) = 0` has a real root and its larger
root is non-negative, i.e. when the discriminant is non-negative and either
`2 o·d ≤ 0` or `o·o − radius² ≤ 0`. -/
def raySphereHit (radius : ℚ) (origin direction : Vector3) : Prop :=
  0 ≤ (2 * origin.dot direction) ^ 2 -
      4 * (direction.dot direction) * (origin.dot origin - radius ^ 2) ∧
    (2 * origin.dot direction ≤ 0 ∨ origin.dot origin - radius ^ 2 ≤ 0)

instance (radius : ℚ) (origin direction : Vector3) :
    Decidable (raySphereHit radius origin direction) :=
  inferInstanceAs (Decidable (_ ∧ _))

/-- A perspective camera over the spherical world: position, view direction
`fwd`, and the screen axes `rightv`/`upv`, scaled by the tangents of the half
fields of view so that the ray through NDC (x, y) runs along
`fwd + x·rightv + y·upv`. -/
structure SphereCamera where
  pos : Vector3
  fwd : Vector3
  rightv : Vector3
  upv : Vector3
deriving DecidableEq

/-- The world-space direction of the ray through NDC (x, y). -/
def cornerDir (c : SphereCamera) (x y : ℚ) : Vector3 :=
  c.fwd.add ((Vector3.smul x c.rightv).add (Vector3.smul y c.upv))

/-- A roll-free camera attitude over the globe: the screen axes are orthogonal
to the view direction, and the camera is positioned on the view axis through a
target point whose radial direction (the local up of the globe) is orthogonal
to the screen x axis — exactly the attitude harp computes from a geo target
with heading and tilt but no roll. -/
def NoRoll (c : SphereCamera) : Prop :=
  c.rightv.dot c.fwd = 0 ∧ c.rightv.dot c.upv = 0 ∧
    ∃ target k, c.rightv.dot target = 0 ∧ c.pos = target.add (Vector3.smul k c.fwd)

/-- The four NDC viewport corners, in the raycast order of
addCanvasCornerIntersection. -/
def canvasCorners : List (ℚ × ℚ) := [(-1, -1), (-1, 1), (1, 1), (1, -1)]

/-- How many of the four NDC corner rays of the camera meet the ground sphere. -/
def cornerHitCount (radius : ℚ) (c : SphereCamera) : Nat :=
  (canvasCorners.filter fun p =>
    decide (raySphereHit radius c.pos (cornerDir c p.1 p.2))).length

/-- The Env induced by a sphere camera: the NDC raycast reports a hit exactly
when the corner ray meets the ground sphere (the hit point itself, irrational
in general, never influences the hit count or the consistency assertion, so the
ray direction stands in for it); the remaining capabilities come from `base`. -/
def envOfSphereCamera (radius : ℚ) (c : SphereCamera) (base : Env) : Env :=
  { base with
    projectionType := ProjectionType.Spherical
    rayCastWorldCoordinates := fun x y =>
      if raySphereHit radius c.pos (cornerDir c x y) then some (cornerDir c x y)
      else none }

/-! ### Concrete environments used by witnesses and counterexamples -/

/-- A frustum plane that intersects nothing. -/
def trivialPlaneCap : PlaneCap := ⟨fun _ => none, fun _ => none⟩

/-- A spherical environment in which every external probe misses. -/
def baseEnv : Env where
  projectionType := ProjectionType.Spherical
  tileWrappingEnabled := false
  rayCastWorldCoordinates := fun _ _ => none
  unprojectPoint := fun v => ⟨v.y, v.x, none⟩
  worldExtentMin := ⟨0, 0, 0⟩
  worldExtentMax := ⟨100, 100, 0⟩
  frustumContainsPoint := fun _ => false
  frustumPlanes := fun _ => trivialPlaneCap
  closeToFrustum := fun _ => false
  cameraUnproject := id
  cameraProject := id
  groundPlaneIntersectLine := fun _ => none
  intersectSphere := fun _ => none
  normalize := id

/-- A planar environment in which all four NDC corner raycasts hit inside the
world rectangle. -/
def envAllCorners : Env :=
  { baseEnv with
    projectionType := ProjectionType.Planar
    rayCastWorldCoordinates := fun x y =>
      some ⟨if x < 0 then 1 else 3, if y < 0 then 1 else 3, 0⟩ }

/-- A planar environment in which every probe misses. -/
def envPlanarEmpty : Env :=
  { baseEnv with projectionType := ProjectionType.Planar }

/-- A spherical environment whose four corner rays hit points straddling the
antimeridian (longitudes 170, -170, 175, -175) while the look-at raycast lands
at longitude 180, so the normalization pass shifts the negative longitudes. -/
def envSphereAntimeridian : Env :=
  { baseEnv with
    rayCastWorldCoordinates := fun x y =>
      some ⟨x, y, if x = 0 ∧ y = 0 then 0 else 1⟩
    unprojectPoint := fun v =>
      if v.z = 0 then ⟨0, 180, none⟩
      else if v.x = -1 ∧ v.y = -1 then ⟨0, 170, none⟩
      else if v.x = -1 ∧ v.y = 1 then ⟨0, -170, none⟩
      else if v.x = 1 ∧ v.y = 1 then ⟨0, 175, none⟩
      else ⟨0, -175, none⟩ }

/-- Two coordinates straddling longitude 0 with a direct span below 180,
exercising the span fallback of the normalization pass. -/
def straddleNarrow : List GeoCoordinates := [⟨0, -10, none⟩, ⟨0, 10, none⟩]

/-- The world corners of `envPlanarEmpty` as getWorldConers yields them. -/
def cornersPlanarEmpty : TileCorners :=
  { sw := ⟨0, 0, 0⟩, se := ⟨100, 0, 0⟩, nw := ⟨0, 100, 0⟩, ne := ⟨100, 100, 0⟩ }

/-- A no-roll camera two radii from the sphere center looking straight at it
with a narrow frustum: every corner ray misses. -/
def cameraAllMiss : SphereCamera where
  pos := ⟨2, 0, 0⟩
  fwd := ⟨-1, 0, 0⟩
  rightv := ⟨0, 1, 0⟩
  upv := ⟨0, 0, 1⟩

/-! ### General lemmas -/

lemma length_shiftNegativeLongitudes (coordinates : List GeoCoordinates) :
    (shiftNegativeLongitudes coordinates).length = coordinates.length := by
  simp [shiftNegativeLongitudes]

lemma length_normalizeCoordinates (env : Env) (coordinates : List GeoCoordinates) :
    (normalizeCoordinates env coordinates).length = coordinates.length := by
  unfold normalizeCoordinates
  cases coordinates with
  | nil => rfl
  | cons c rest =>
    dsimp only
    split
    · rfl
    · split
      · split <;> simp [length_shiftNegativeLongitudes]
      · split <;> simp [length_shiftNegativeLongitudes]

lemma createPolygon_eq_none_iff (env : Env) (coordinates : List GeoCoordinates)
    (sort normalize : Bool) :
    createPolygon env coordinates sort normalize = none ↔ coordinates.length < 3 := by
  unfold createPolygon
  split <;> simp <;> omega

lemma createPolygon_some_length (env : Env) (coordinates : List GeoCoordinates)
    (sort normalize : Bool) (poly : GeoPolygon)
    (h : createPolygon env coordinates sort normalize = some poly) :
    3 ≤ poly.coordinates.length := by
  unfold createPolygon at h
  split at h
  · cases h
    cases normalize <;> simp [length_normalizeCoordinates] <;> omega
  · exact absurd h (by simp)

/-! ### C9: the subdivision step is the identity -/

/-- C9: subdivideSides returns every coordinate list unchanged and in order —
the step is the documented no-op placeholder. -/
theorem subdivideSides_id (coordinates : List GeoCoordinates) :
    subdivideSides coordinates = coordinates :=
  rfl

/-! ### C10: the static elevation range source -/

/-- C10: getElevationRange returns the fixed pair with status FinalPrecise for
every tile key (hence independently of the key), ready() is always true, and
connect() yields an already-resolved promise. -/
theorem staticElevationRangeSource_contract (s : StaticElevationRangeSource)
    (tileKey otherKey : TileKey) :
    s.getElevationRange tileKey =
        { minElevation := s.m_minElevation
          maxElevation := s.m_maxElevation
          calculationStatus := some CalculationStatus.FinalPrecise } ∧
      s.getElevationRange tileKey = s.getElevationRange otherKey ∧
      s.ready = true ∧
      s.connect = PromiseState.resolved :=
  ⟨rfl, rfl, rfl, rfl⟩

/-! ### C5: coordinate validation -/

/-- C5: a world point passes isInVisibleMap exactly when, under planar
projection, its world Y lies in [0, circumference] and, when tile wrapping is
disabled, its world X lies in the same range; under spherical projection every
point passes. -/
theorem isInVisibleMap_iff (env : Env) (point : Vector3) :
    isInVisibleMap env point = true ↔
      (env.projectionType = ProjectionType.Planar →
        (0 ≤ point.y ∧ point.y ≤ EQUATORIAL_CIRCUMFERENCE) ∧
          (env.tileWrappingEnabled = false →
            0 ≤ point.x ∧ point.x ≤ EQUATORIAL_CIRCUMFERENCE)) := by
  unfold isInVisibleMap
  by_cases hp : env.projectionType = ProjectionType.Planar
  · rw [if_pos hp]
    simp only [hp, true_implies]
    split_ifs with h1 h2
    · simp only [Bool.false_eq_true, false_iff, not_and]
      intro hy _
      rcases h1 with h | h
      · exact absurd hy.1 (not_le.mpr h)
      · exact absurd hy.2 (not_le.mpr h)
    · simp only [Bool.false_eq_true, false_iff, not_and]
      intro _ hx
      rcases h2 with ⟨hw, hxr⟩
      rcases hx (Bool.not_eq_true _ ▸ hw) with ⟨hx0, hx1⟩
      rcases hxr with h | h
      · exact absurd hx0 (not_le.mpr h)
      · exact absurd hx1 (not_le.mpr h)
    · push_neg at h1
      simp only [true_iff]
      refine ⟨⟨h1.1, h1.2⟩, fun hw => ?_⟩
      by_contra hx
      push_neg at hx
      refine h2 ⟨by simp [hw], ?_⟩
      by_cases h0 : point.x < 0
      · exact Or.inl h0
      · exact Or.inr (hx (le_of_not_lt h0))
  · rw [if_neg hp]
    simp [hp]

/-! ### C1: absence exactly below three boundary points -/

/-- C1: generate yields absence exactly when the dispatched algorithm
accumulated fewer than 3 boundary points, and every returned polygon has at
least 3 vertices; absence is the none value, not an error. -/
theorem generate_absent_iff (env : Env) :
    (generate env = none ↔ (boundaryCoordinates env).length < 3) ∧
      ∀ poly, generate env = some poly → 3 ≤ poly.coordinates.length := by
  constructor
  · unfold generate boundaryCoordinates
    split
    · exact createPolygon_eq_none_iff env (planeCoordinates env) true false
    · exact createPolygon_eq_none_iff env
        (subdivideSides (findBoundsIntersectionsOnSphere env)) true true
  · intro poly hpoly
    unfold generate at hpoly
    split at hpoly
    · exact createPolygon_some_length env (planeCoordinates env) true false poly hpoly
    · exact createPolygon_some_length env
        (subdivideSides (findBoundsIntersectionsOnSphere env)) true true poly hpoly

/-- Witness for C1: in the all-miss spherical environment no boundary point
accumulates and generate reports absence. -/
theorem generate_absent_iff_witness : generate baseEnv = none :=
  (generate_absent_iff baseEnv).1.mpr (by decide)

/-- Witness for C5: a planar point inside the world rectangle validates. -/
theorem isInVisibleMap_iff_witness :
    isInVisibleMap envAllCorners ⟨1, 1, 0⟩ = true :=
  (isInVisibleMap_iff envAllCorners ⟨1, 1, 0⟩).mpr (by decide)

/-! ### Longitude fold lemmas -/

lemma foldl_min_le_init (l : List GeoCoordinates) (a : ℚ) :
    l.foldl (fun m c => min m c.longitude) a ≤ a := by
  induction l generalizing a with
  | nil => exact le_refl a
  | cons c l ih => exact le_trans (ih (min a c.longitude)) (min_le_left _ _)

lemma foldl_min_le_mem {c : GeoCoordinates} {l : List GeoCoordinates} (h : c ∈ l)
    (a : ℚ) : l.foldl (fun m c => min m c.longitude) a ≤ c.longitude := by
  induction l generalizing a with
  | nil => cases h
  | cons d l ih =>
    rcases List.mem_cons.mp h with rfl | hmem
    · exact le_trans (foldl_min_le_init l _) (min_le_right _ _)
    · exact ih hmem _

lemma le_foldl_min {b : ℚ} {l : List GeoCoordinates} (a : ℚ) (h0 : b ≤ a)
    (h : ∀ c ∈ l, b ≤ c.longitude) :
    b ≤ l.foldl (fun m c => min m c.longitude) a := by
  induction l generalizing a with
  | nil => exact h0
  | cons d l ih =>
    exact ih _ (le_min h0 (h d (List.mem_cons_self d l)))
      fun c hc => h c (List.mem_cons_of_mem d hc)

lemma init_le_foldl_max (l : List GeoCoordinates) (a : ℚ) :
    a ≤ l.foldl (fun m c => max m c.longitude) a := by
  induction l generalizing a with
  | nil => exact le_refl a
  | cons c l ih => exact le_trans (le_max_left _ _) (ih (max a c.longitude))

lemma mem_le_foldl_max {c : GeoCoordinates} {l : List GeoCoordinates} (h : c ∈ l)
    (a : ℚ) : c.longitude ≤ l.foldl (fun m c => max m c.longitude) a := by
  induction l generalizing a with
  | nil => cases h
  | cons d l ih =>
    rcases List.mem_cons.mp h with rfl | hmem
    · exact le_trans (le_max_right _ _) (init_le_foldl_max l _)
    · exact ih hmem _

lemma foldl_max_lt {b : ℚ} {l : List GeoCoordinates} (a : ℚ) (h0 : a < b)
    (h : ∀ c ∈ l, c.longitude < b) :
    l.foldl (fun m c => max m c.longitude) a < b := by
  induction l generalizing a with
  | nil => exact h0
  | cons d l ih =>
    exact ih _ (max_lt h0 (h d (List.mem_cons_self d l)))
      fun c hc => h c (List.mem_cons_of_mem d hc)

lemma minLongitudeOf_le {c : GeoCoordinates} {l : List GeoCoordinates} (h : c ∈ l) :
    minLongitudeOf l ≤ c.longitude := by
  cases l with
  | nil => cases h
  | cons c0 rest =>
    rcases List.mem_cons.mp h with rfl | hmem
    · exact foldl_min_le_init rest _
    · exact foldl_min_le_mem hmem _

lemma le_maxLongitudeOf {c : GeoCoordinates} {l : List GeoCoordinates} (h : c ∈ l) :
    c.longitude ≤ maxLongitudeOf l := by
  cases l with
  | nil => cases h
  | cons c0 rest =>
    rcases List.mem_cons.mp h with rfl | hmem
    · exact init_le_foldl_max rest _
    · exact mem_le_foldl_max hmem _

lemma minLongitudeOf_nonneg {l : List GeoCoordinates}
    (h : ∀ c ∈ l, 0 ≤ c.longitude) : 0 ≤ minLongitudeOf l := by
  cases l with
  | nil => exact le_refl 0
  | cons c0 rest =>
    exact le_foldl_min _ (h c0 (List.mem_cons_self c0 rest))
      fun c hc => h c (List.mem_cons_of_mem c0 hc)

lemma maxLongitudeOf_neg {c0 : GeoCoordinates} {rest : List GeoCoordinates}
    (h : ∀ c ∈ c0 :: rest, c.longitude < 0) : maxLongitudeOf (c0 :: rest) < 0 :=
  foldl_max_lt _ (h c0 (List.mem_cons_self c0 rest))
    fun c hc => h c (List.mem_cons_of_mem c0 hc)

/-! ### Behaviour of the normalization pass -/

lemma normalizeCoordinates_skip (env : Env) (coordinates : List GeoCoordinates)
    (h : (∀ c ∈ coordinates, 0 ≤ c.longitude) ∨ (∀ c ∈ coordinates, c.longitude < 0)) :
    normalizeCoordinates env coordinates = coordinates := by
  cases coordinates with
  | nil => rfl
  | cons c0 rest =>
    unfold normalizeCoordinates
    dsimp only
    rw [if_pos ?_]
    rcases h with h | h
    · exact Or.inl (minLongitudeOf_nonneg h)
    · exact Or.inr (maxLongitudeOf_neg h)

lemma normalizeCoordinates_straddle (env : Env) (coordinates : List GeoCoordinates)
    (h1 : ∃ c ∈ coordinates, c.longitude < 0)
    (h2 : ∃ c ∈ coordinates, 0 ≤ c.longitude) :
    normalizeCoordinates env coordinates =
      match env.rayCastWorldCoordinates 0 0 with
      | some cameraTarget =>
        if -90 < (env.unprojectPoint cameraTarget).longitude ∧
            (env.unprojectPoint cameraTarget).longitude < 90 then
          coordinates
        else shiftNegativeLongitudes coordinates
      | none =>
        if maxLongitudeOf coordinates - minLongitudeOf coordinates <
            360 + minLongitudeOf coordinates - maxLongitudeOf coordinates then
          coordinates
        else shiftNegativeLongitudes coordinates := by
  obtain ⟨cneg, hmemneg, hneg⟩ := h1
  obtain ⟨cpos, hmempos, hpos⟩ := h2
  cases coordinates with
  | nil => cases hmemneg
  | cons c0 rest =>
    unfold normalizeCoordinates
    dsimp only
    rw [if_neg ?_]
    push_neg
    exact ⟨lt_of_le_of_lt (minLongitudeOf_le hmemneg) hneg,
      le_trans hpos (le_maxLongitudeOf hmempos)⟩

lemma shiftNegativeLongitudes_ne {l : List GeoCoordinates}
    (h : ∃ c ∈ l, c.longitude < 0) : shiftNegativeLongitudes l ≠ l := by
  induction l with
  | nil => simp at h
  | cons c rest ih =>
    intro heq
    rw [shiftNegativeLongitudes, List.map_cons, List.cons_eq_cons] at heq
    obtain ⟨d, hd, hneg⟩ := h
    rcases List.mem_cons.mp hd with rfl | hmem
    · rw [if_pos hneg] at heq
      have hlon := congrArg GeoCoordinates.longitude heq.1
      simp only at hlon
      linarith
    · exact ih ⟨d, hmem, hneg⟩ heq.2

/-! ### C4: the normalization dichotomy as the claim words it, and as coded -/

/-- C4 counterexample: a coordinate pair straddling longitude 0 while the
look-at raycast misses.  The source leaves the narrow-span pair unchanged, but
the rule as the claim words it (shift whenever the look-at longitude is not
strictly inside (-90, 90), which holds vacuously when no look-at point exists)
demands the +360 shift, which would alter the pair. -/
theorem normalizeCoordinates_claim_counterexample :
    normalizeCoordinates baseEnv straddleNarrow = straddleNarrow ∧
      normalizeCoordinatesClaimed baseEnv straddleNarrow =
        shiftNegativeLongitudes straddleNarrow ∧
      shiftNegativeLongitudes straddleNarrow ≠ straddleNarrow := by
  refine ⟨?_, ?_, shiftNegativeLongitudes_ne (by decide)⟩
  · rw [normalizeCoordinates_straddle baseEnv straddleNarrow (by decide) (by decide)]
    norm_num [baseEnv, straddleNarrow, minLongitudeOf, maxLongitudeOf, min_def, max_def]
  · norm_num [normalizeCoordinatesClaimed, baseEnv, straddleNarrow, minLongitudeOf,
      maxLongitudeOf, min_def, max_def]

/-- C4 amended: the skip case (all longitudes non-negative or all negative,
hence a no-op, and idempotence on already normalized sets) and the look-at
dichotomy are as the claim states; when the look-at raycast finds no ground
point, the shift is instead governed by the span comparison (the fallback the
claim text omits). -/
theorem normalizeCoordinates_cases (env : Env) (coordinates : List GeoCoordinates) :
    ((∀ c ∈ coordinates, 0 ≤ c.longitude) ∨ (∀ c ∈ coordinates, c.longitude < 0) →
        normalizeCoordinates env coordinates = coordinates) ∧
      (∀ cameraTarget,
        (∃ c ∈ coordinates, c.longitude < 0) → (∃ c ∈ coordinates, 0 ≤ c.longitude) →
          env.rayCastWorldCoordinates 0 0 = some cameraTarget →
          normalizeCoordinates env coordinates =
            if -90 < (env.unprojectPoint cameraTarget).longitude ∧
                (env.unprojectPoint cameraTarget).longitude < 90 then
              coordinates
            else shiftNegativeLongitudes coordinates) ∧
      ((∃ c ∈ coordinates, c.longitude < 0) → (∃ c ∈ coordinates, 0 ≤ c.longitude) →
        env.rayCastWorldCoordinates 0 0 = none →
        normalizeCoordinates env coordinates =
          if maxLongitudeOf coordinates - minLongitudeOf coordinates <
              360 + minLongitudeOf coordinates - maxLongitudeOf coordinates then
            coordinates
          else shiftNegativeLongitudes coordinates) := by
  refine ⟨normalizeCoordinates_skip env coordinates, ?_, ?_⟩
  · intro cameraTarget h1 h2 hray
    rw [normalizeCoordinates_straddle env coordinates h1 h2, hray]
  · intro h1 h2 hray
    rw [normalizeCoordinates_straddle env coordinates h1 h2, hray]

/-- Witness for C4 amended: a single non-negative longitude is left unchanged. -/
theorem normalizeCoordinates_cases_witness :
    normalizeCoordinates baseEnv [⟨0, 5, none⟩] = [⟨0, 5, none⟩] :=
  (normalizeCoordinates_cases baseEnv [⟨0, 5, none⟩]).1 (Or.inl (by decide))

/-! ### C8: the span fallback when the look-at raycast misses -/

/-- C8: with longitudes straddling zero and no look-at ground point, the +360
shift of negative longitudes is applied exactly when the direct span
maxLongitude − minLongitude is at least the wrapped span
360 + minLongitude − maxLongitude, which is equivalent to the direct span being
at least 180; otherwise the coordinates are unchanged. -/
theorem normalizeCoordinates_span_fallback (env : Env)
    (coordinates : List GeoCoordinates)
    (h1 : ∃ c ∈ coordinates, c.longitude < 0)
    (h2 : ∃ c ∈ coordinates, 0 ≤ c.longitude)
    (hmiss : env.rayCastWorldCoordinates 0 0 = none) :
    (normalizeCoordinates env coordinates = shiftNegativeLongitudes coordinates ↔
        360 + minLongitudeOf coordinates - maxLongitudeOf coordinates ≤
          maxLongitudeOf coordinates - minLongitudeOf coordinates) ∧
      (maxLongitudeOf coordinates - minLongitudeOf coordinates <
          360 + minLongitudeOf coordinates - maxLongitudeOf coordinates →
        normalizeCoordinates env coordinates = coordinates) ∧
      (360 + minLongitudeOf coordinates - maxLongitudeOf coordinates ≤
          maxLongitudeOf coordinates - minLongitudeOf coordinates ↔
        180 ≤ maxLongitudeOf coordinates - minLongitudeOf coordinates) := by
  have hbase := normalizeCoordinates_straddle env coordinates h1 h2
  rw [hmiss] at hbase
  refine ⟨?_, ?_, ?_⟩
  · constructor
    · intro hshift
      by_contra hlt
      push_neg at hlt
      rw [if_pos hlt] at hbase
      exact shiftNegativeLongitudes_ne h1 (hbase ▸ hshift).symm
    · intro hge
      rwa [if_neg (not_lt.mpr hge)] at hbase
  · intro hlt
    rwa [if_pos hlt] at hbase
  · constructor <;> intro h <;> linarith

/-- Witness for C8: the narrow straddling pair is below the 180-degree span
threshold, so no shift is applied. -/
theorem normalizeCoordinates_span_fallback_witness :
    (∃ c ∈ straddleNarrow, c.longitude < 0) ∧
      (maxLongitudeOf straddleNarrow - minLongitudeOf straddleNarrow <
          360 + minLongitudeOf straddleNarrow - maxLongitudeOf straddleNarrow →
        normalizeCoordinates baseEnv straddleNarrow = straddleNarrow) :=
  ⟨by decide,
    (normalizeCoordinates_span_fallback baseEnv straddleNarrow (by decide)
        (by decide) rfl).2.1⟩

/-! ### C2 and C3: the four-corner early returns -/

lemma isInVisibleMap_spherical (env : Env)
    (h : env.projectionType = ProjectionType.Spherical) (point : Vector3) :
    isInVisibleMap env point = true := by
  unfold isInVisibleMap
  rw [h]
  simp

lemma addCanvasCornerIntersection_four (env : Env) (p1 p2 p3 p4 : Vector3)
    (h1 : env.rayCastWorldCoordinates (-1) (-1) = some p1)
    (h2 : env.rayCastWorldCoordinates (-1) 1 = some p2)
    (h3 : env.rayCastWorldCoordinates 1 1 = some p3)
    (h4 : env.rayCastWorldCoordinates 1 (-1) = some p4)
    (v1 : isInVisibleMap env p1 = true) (v2 : isInVisibleMap env p2 = true)
    (v3 : isInVisibleMap env p3 = true) (v4 : isInVisibleMap env p4 = true) :
    addCanvasCornerIntersection env [] =
      [env.unprojectPoint p1, env.unprojectPoint p2, env.unprojectPoint p3,
        env.unprojectPoint p4] := by
  unfold addCanvasCornerIntersection addNDCRayIntersection
  simp [List.foldl, h1, h2, h3, h4, validateAndAddToGeoPolygon, v1, v2, v3, v4]

/-- C2: on a planar projection whose four NDC corner raycasts hit validated
points, generate returns exactly those four unprojected hits with the
counter-clockwise sort flag set — the horizon, world-corner and frustum-edge
steps contribute nothing (the result does not depend on any of the
corresponding capabilities of the environment). -/
theorem generate_planar_fourCorners (env : Env) (p1 p2 p3 p4 : Vector3)
    (hplanar : env.projectionType = ProjectionType.Planar)
    (h1 : env.rayCastWorldCoordinates (-1) (-1) = some p1)
    (h2 : env.rayCastWorldCoordinates (-1) 1 = some p2)
    (h3 : env.rayCastWorldCoordinates 1 1 = some p3)
    (h4 : env.rayCastWorldCoordinates 1 (-1) = some p4)
    (v1 : isInVisibleMap env p1 = true) (v2 : isInVisibleMap env p2 = true)
    (v3 : isInVisibleMap env p3 = true) (v4 : isInVisibleMap env p4 = true) :
    generate env =
      some ⟨[env.unprojectPoint p1, env.unprojectPoint p2, env.unprojectPoint p3,
        env.unprojectPoint p4], true⟩ := by
  have hcorners := addCanvasCornerIntersection_four env p1 p2 p3 p4 h1 h2 h3 h4 v1 v2 v3 v4
  unfold generate
  rw [if_pos hplanar]
  unfold generateOnPlane planeCoordinates
  rw [hcorners]
  simp [createPolygon]

/-- Witness for C2: a planar environment whose corner raycasts land at the
four points (1,1), (1,3), (3,3), (3,1) inside the world rectangle. -/
theorem generate_planar_fourCorners_witness :
    generate envAllCorners =
      some ⟨[⟨1, 1, none⟩, ⟨3, 1, none⟩, ⟨3, 3, none⟩, ⟨1, 3, none⟩], true⟩ :=
  generate_planar_fourCorners envAllCorners ⟨1, 1, 0⟩ ⟨1, 3, 0⟩ ⟨3, 3, 0⟩ ⟨3, 1, 0⟩
    rfl (by decide) (by decide) (by decide) (by decide)
    (by decide) (by decide) (by decide) (by decide)

lemma sphere_fourCorners_aux (env : Env) (p1 p2 p3 p4 : Vector3)
    (hsphere : env.projectionType = ProjectionType.Spherical)
    (h1 : env.rayCastWorldCoordinates (-1) (-1) = some p1)
    (h2 : env.rayCastWorldCoordinates (-1) 1 = some p2)
    (h3 : env.rayCastWorldCoordinates 1 1 = some p3)
    (h4 : env.rayCastWorldCoordinates 1 (-1) = some p4) :
    generate env =
      some ⟨normalizeCoordinates env
        [env.unprojectPoint p1, env.unprojectPoint p2, env.unprojectPoint p3,
          env.unprojectPoint p4], true⟩ := by
  have hv := isInVisibleMap_spherical env hsphere
  have hcorners := addCanvasCornerIntersection_four env p1 p2 p3 p4 h1 h2 h3 h4
    (hv p1) (hv p2) (hv p3) (hv p4)
  unfold generate
  rw [if_neg (by rw [hsphere]; exact (by decide))]
  unfold generateOnSphere findBoundsIntersectionsOnSphere subdivideSides
  rw [show addCanvasCornerIntersection env [] false = addCanvasCornerIntersection env []
      from rfl, hcorners]
  simp [createPolygon]

/-- C3 amended: on a spherical projection whose four NDC corner rays all hit
the ground sphere, generate skips the far-plane side probes and returns exactly
those four unprojected intersection points after the antimeridian
normalization pass — which may shift negative longitudes by +360 and therefore
alter the coordinates. -/
theorem generate_sphere_fourCorners (env : Env) (p1 p2 p3 p4 : Vector3)
    (hsphere : env.projectionType = ProjectionType.Spherical)
    (h1 : env.rayCastWorldCoordinates (-1) (-1) = some p1)
    (h2 : env.rayCastWorldCoordinates (-1) 1 = some p2)
    (h3 : env.rayCastWorldCoordinates 1 1 = some p3)
    (h4 : env.rayCastWorldCoordinates 1 (-1) = some p4) :
    generate env =
      some ⟨normalizeCoordinates env
        [env.unprojectPoint p1, env.unprojectPoint p2, env.unprojectPoint p3,
          env.unprojectPoint p4], true⟩ :=
  sphere_fourCorners_aux env p1 p2 p3 p4 hsphere h1 h2 h3 h4

/-- Witness for C3 amended: the antimeridian environment has all four corner
rays hitting the sphere. -/
theorem generate_sphere_fourCorners_witness :
    envSphereAntimeridian.rayCastWorldCoordinates (-1) (-1) = some ⟨-1, -1, 1⟩ ∧
      generate envSphereAntimeridian =
        some ⟨normalizeCoordinates envSphereAntimeridian
          [envSphereAntimeridian.unprojectPoint ⟨-1, -1, 1⟩,
            envSphereAntimeridian.unprojectPoint ⟨-1, 1, 1⟩,
            envSphereAntimeridian.unprojectPoint ⟨1, 1, 1⟩,
            envSphereAntimeridian.unprojectPoint ⟨1, -1, 1⟩], true⟩ :=
  ⟨by decide,
    generate_sphere_fourCorners envSphereAntimeridian ⟨-1, -1, 1⟩ ⟨-1, 1, 1⟩
      ⟨1, 1, 1⟩ ⟨1, -1, 1⟩ rfl (by decide) (by decide) (by decide) (by decide)⟩

/-- C3 counterexample: in the antimeridian environment all four corner rays hit
the sphere at longitudes 170, -170, 175, -175, yet generate returns the
polygon with the negative longitudes shifted to 190 and 185 — not the four raw
intersection points, whose coordinates the normalization pass altered. -/
theorem generate_sphere_fourCorners_counterexample :
    generate envSphereAntimeridian =
      some ⟨[⟨0, 170, none⟩, ⟨0, 190, none⟩, ⟨0, 175, none⟩, ⟨0, 185, none⟩], true⟩ ∧
      ([⟨0, 170, none⟩, ⟨0, 190, none⟩, ⟨0, 175, none⟩, ⟨0, 185, none⟩] :
          List GeoCoordinates) ≠
        [⟨0, 170, none⟩, ⟨0, -170, none⟩, ⟨0, 175, none⟩, ⟨0, -175, none⟩] := by
  constructor
  · rw [sphere_fourCorners_aux envSphereAntimeridian
      ⟨-1, -1, 1⟩ ⟨-1, 1, 1⟩ ⟨1, 1, 1⟩ ⟨1, -1, 1⟩ rfl
      (by decide) (by decide) (by decide) (by decide)]
    rw [show envSphereAntimeridian.unprojectPoint ⟨-1, -1, 1⟩ = ⟨0, 170, none⟩ from rfl,
      show envSphereAntimeridian.unprojectPoint ⟨-1, 1, 1⟩ = ⟨0, -170, none⟩ from by decide,
      show envSphereAntimeridian.unprojectPoint ⟨1, 1, 1⟩ = ⟨0, 175, none⟩ from by decide,
      show envSphereAntimeridian.unprojectPoint ⟨1, -1, 1⟩ = ⟨0, -175, none⟩ from by decide]
    rw [normalizeCoordinates_straddle envSphereAntimeridian _ (by decide) (by decide)]
    norm_num [envSphereAntimeridian, baseEnv, shiftNegativeLongitudes]
  · decide

/-! ### C6: the planar world-boundary steps -/

lemma foldl_step_append {α β : Type} (f : α → List β) (step : List β → α → List β)
    (hstep : ∀ acc a, step acc a = acc ++ f a) :
    ∀ (l : List α) (acc : List β), l.foldl step acc = acc ++ l.flatMap f := by
  intro l
  induction l with
  | nil => intro acc; simp
  | cons a l ih =>
    intro acc
    rw [List.foldl_cons, hstep, ih, List.flatMap_cons, List.append_assoc]

lemma flatMap_singleton_if {α β : Type} (c : α → Bool) (g : α → β) (l : List α) :
    l.flatMap (fun a => if c a then [g a] else []) = (l.filter c).map g := by
  induction l with
  | nil => rfl
  | cons a l ih => by_cases h : c a <;> simp [h, ih]

lemma addPointInFrustum_step (env : Env) (acc : List GeoCoordinates) (p : Vector3) :
    addPointInFrustum env p acc =
      acc ++ (if env.frustumContainsPoint p then
        [{ env.unprojectPoint p with altitude := some 0 }] else []) := by
  unfold addPointInFrustum
  by_cases h : env.frustumContainsPoint p <;> simp [h]

lemma foldl_addPointInFrustum (env : Env) (points : List Vector3)
    (acc : List GeoCoordinates) :
    points.foldl (fun acc corner => addPointInFrustum env corner acc) acc =
      acc ++ (points.filter env.frustumContainsPoint).map
        (fun p => { env.unprojectPoint p with altitude := some 0 }) := by
  rw [foldl_step_append _ _ (addPointInFrustum_step env) points acc,
    flatMap_singleton_if]

lemma addFrustumIntersection_step (env : Env) (edge : Edge)
    (acc : List GeoCoordinates) (i : Fin 6) :
    (match edgeIntersectPlane env edge i with
      | some p =>
        if env.closeToFrustum p then
          acc ++ [{ env.unprojectPoint p with altitude := some 0 }]
        else acc
      | none => acc) = acc ++ planeHit env edge i := by
  unfold planeHit
  cases h : edgeIntersectPlane env edge i with
  | none => simp
  | some p => by_cases hc : env.closeToFrustum p <;> simp [hc]

lemma addFrustumIntersection_eq (env : Env) (edge : Edge)
    (acc : List GeoCoordinates) :
    addFrustumIntersection env edge acc = acc ++ frustumPlaneHits env edge := by
  unfold addFrustumIntersection frustumPlaneHits
  exact foldl_step_append _ _ (fun acc i => addFrustumIntersection_step env edge acc i)
    (List.finRange 6) acc

lemma foldl_addFrustumIntersection (env : Env) (edges : List Edge)
    (acc : List GeoCoordinates) :
    edges.foldl (fun acc edge => addFrustumIntersection env edge acc) acc =
      acc ++ edges.flatMap (frustumPlaneHits env) :=
  foldl_step_append _ _ (fun acc edge => addFrustumIntersection_eq env edge acc)
    edges acc

/-- C6: once past the corner and horizon stages, the planar accumulation is
exactly: with wrapping disabled, the frustum-contained world corners (altitude
forced to 0) followed by the tolerance-confirmed intersections of the four
finite world edges with every one of the six frustum planes (altitude forced
to 0); with wrapping enabled, the corner containment test is skipped and the
four infinite east/west rays from the south and north world edges are
intersected against every frustum plane instead. -/
theorem planar_worldBoundary_steps (env : Env) (worldCorners : TileCorners)
    (hne : (addCanvasCornerIntersection env []).length ≠ 4)
    (hwc : getWorldConers env = some worldCorners) :
    planeCoordinates env =
      addHorizonIntersection env (addCanvasCornerIntersection env []) ++
        (if env.tileWrappingEnabled = false then
          cornersInFrustum env worldCorners ++
            (worldEdgeLines worldCorners).flatMap (frustumPlaneHits env)
        else
          (worldEdgeRays env worldCorners).flatMap (frustumPlaneHits env)) := by
  unfold planeCoordinates
  simp only [hwc, if_neg hne]
  cases hw : env.tileWrappingEnabled with
  | false =>
    simp only [hw, Bool.false_eq_true, not_false_iff, if_pos, if_true]
    rw [foldl_addPointInFrustum, foldl_addFrustumIntersection, List.append_assoc]
    rfl
  | true =>
    simp only [hw, not_true, if_neg, if_false]
    rw [foldl_addFrustumIntersection]
    rfl

/-- Witness for C6: the empty planar environment, in which the corner stage
yields no points and both sides evaluate to the empty accumulation. -/
theorem planar_worldBoundary_steps_witness :
    planeCoordinates envPlanarEmpty =
      addHorizonIntersection envPlanarEmpty (addCanvasCornerIntersection envPlanarEmpty []) ++
        (if envPlanarEmpty.tileWrappingEnabled = false then
          cornersInFrustum envPlanarEmpty cornersPlanarEmpty ++
            (worldEdgeLines cornersPlanarEmpty).flatMap (frustumPlaneHits envPlanarEmpty)
        else
          (worldEdgeRays envPlanarEmpty cornersPlanarEmpty).flatMap
            (frustumPlaneHits envPlanarEmpty)) :=
  planar_worldBoundary_steps envPlanarEmpty cornersPlanarEmpty (by decide) (by decide)

/-! ### C7: corner-hit parity for roll-free cameras -/

lemma noRoll_right_dot_pos (c : SphereCamera) (hnr : NoRoll c) :
    c.rightv.dot c.pos = 0 := by
  obtain ⟨hrf, _, target, k, hrt, hp⟩ := hnr
  rw [hp]
  rcases c with ⟨pos, fwd, ⟨r1, r2, r3⟩, upv⟩
  rcases target with ⟨t1, t2, t3⟩
  rcases fwd with ⟨f1, f2, f3⟩
  simp only [Vector3.dot, Vector3.add, Vector3.smul] at *
  linear_combination hrt + k * hrf

lemma raySphereHit_mirror (radius : ℚ) (c : SphereCamera)
    (hrf : c.rightv.dot c.fwd = 0) (hru : c.rightv.dot c.upv = 0)
    (hrp : c.rightv.dot c.pos = 0) (x y : ℚ) :
    raySphereHit radius c.pos (cornerDir c x y) ↔
      raySphereHit radius c.pos (cornerDir c (-x) y) := by
  rcases c with ⟨⟨p1, p2, p3⟩, ⟨f1, f2, f3⟩, ⟨r1, r2, r3⟩, ⟨u1, u2, u3⟩⟩
  simp only [Vector3.dot, cornerDir, Vector3.add, Vector3.smul] at *
  have hA :
      (f1 + (-x * r1 + y * u1)) * (f1 + (-x * r1 + y * u1)) +
          (f2 + (-x * r2 + y * u2)) * (f2 + (-x * r2 + y * u2)) +
          (f3 + (-x * r3 + y * u3)) * (f3 + (-x * r3 + y * u3)) =
        (f1 + (x * r1 + y * u1)) * (f1 + (x * r1 + y * u1)) +
          (f2 + (x * r2 + y * u2)) * (f2 + (x * r2 + y * u2)) +
          (f3 + (x * r3 + y * u3)) * (f3 + (x * r3 + y * u3)) := by
    linear_combination (-4 * x) * hrf + (-4 * x * y) * hru
  have hB :
      p1 * (f1 + (-x * r1 + y * u1)) + p2 * (f2 + (-x * r2 + y * u2)) +
          p3 * (f3 + (-x * r3 + y * u3)) =
        p1 * (f1 + (x * r1 + y * u1)) + p2 * (f2 + (x * r2 + y * u2)) +
          p3 * (f3 + (x * r3 + y * u3)) := by
    linear_combination (-2 * x) * hrp
  simp only [raySphereHit, Vector3.dot]
  rw [hA, hB]

lemma envOfSphereCamera_cornerCount (radius : ℚ) (c : SphereCamera) (base : Env) :
    (addCanvasCornerIntersection (envOfSphereCamera radius c base) [] false).length =
      cornerHitCount radius c := by
  unfold addCanvasCornerIntersection addNDCRayIntersection cornerHitCount
    canvasCorners envOfSphereCamera validateAndAddToGeoPolygon
  by_cases h1 : raySphereHit radius c.pos (cornerDir c (-1) (-1)) <;>
    by_cases h2 : raySphereHit radius c.pos (cornerDir c (-1) 1) <;>
    by_cases h3 : raySphereHit radius c.pos (cornerDir c 1 1) <;>
    by_cases h4 : raySphereHit radius c.pos (cornerDir c 1 (-1)) <;>
    simp [h1, h2, h3, h4, isInVisibleMap]

/-- C7: for a roll-free camera over the ground sphere the number of NDC corner
rays hitting the sphere is 4, 0 or 2 — so whenever not all four corners hit,
the count is exactly 0 or exactly 2, and every internal consistency assertion
of findBoundsIntersectionsOnSphere (in particular the count-is-2 check in the
nonzero-hit branch) holds in the environment the camera induces. -/
theorem noRoll_cornerHits (c : SphereCamera) (hnr : NoRoll c) :
    (cornerHitCount EQUATORIAL_RADIUS c = 4 ∨ cornerHitCount EQUATORIAL_RADIUS c = 0 ∨
        cornerHitCount EQUATORIAL_RADIUS c = 2) ∧
      sphereAssertOk (envOfSphereCamera EQUATORIAL_RADIUS c baseEnv) = true := by
  obtain ⟨hrf, hru, hex⟩ := hnr
  have hrp := noRoll_right_dot_pos c ⟨hrf, hru, hex⟩
  have hm1 := raySphereHit_mirror EQUATORIAL_RADIUS c hrf hru hrp 1 1
  have hm2 := raySphereHit_mirror EQUATORIAL_RADIUS c hrf hru hrp 1 (-1)
  have hone : (-(1 : ℚ)) = -1 := rfl
  rw [hone] at hm1 hm2
  have hcount : cornerHitCount EQUATORIAL_RADIUS c = 4 ∨
      cornerHitCount EQUATORIAL_RADIUS c = 0 ∨ cornerHitCount EQUATORIAL_RADIUS c = 2 := by
    unfold cornerHitCount canvasCorners
    by_cases hA : raySphereHit EQUATORIAL_RADIUS c.pos (cornerDir c (-1) (-1)) <;>
      by_cases hB : raySphereHit EQUATORIAL_RADIUS c.pos (cornerDir c (-1) 1) <;>
      simp [hA, hB, hm1, hm2]
  refine ⟨hcount, ?_⟩
  rw [sphereAssertOk]
  simp only [envOfSphereCamera_cornerCount]
  rcases hcount with h | h | h <;> simp [h]

/-- Witness for C7: the roll-free camera two radii out looking straight at the
globe with a narrow frustum misses with all four corner rays. -/
theorem noRoll_cornerHits_witness :
    (cornerHitCount EQUATORIAL_RADIUS cameraAllMiss = 4 ∨
        cornerHitCount EQUATORIAL_RADIUS cameraAllMiss = 0 ∨
        cornerHitCount EQUATORIAL_RADIUS cameraAllMiss = 2) ∧
      sphereAssertOk (envOfSphereCamera EQUATORIAL_RADIUS cameraAllMiss baseEnv) = true :=
  noRoll_cornerHits cameraAllMiss
    ⟨by norm_num [cameraAllMiss, Vector3.dot],
      by norm_num [cameraAllMiss, Vector3.dot],
      ⟨1, 0, 0⟩, -1,
      by norm_num [cameraAllMiss, Vector3.dot],
      by norm_num [cameraAllMiss, Vector3.add, Vector3.smul]⟩

end HarpBounds







